import Mathlib

/-!
Shallow embedding of the flake output validation and build-orchestration engine
of `src/src/nix/flake.cc` (`CmdFlakeCheck::run` and its helper validators).

Lazy values of the external evaluator are modelled by the `Node` tree: forcing a
`Node.fail` raises an evaluation error, every other constructor is an already
evaluated shape.  Errors carry the chain of context frames accumulated by the
`e.addPrefix(...)` calls of the source (outermost frame first).  The mutable
`drvPaths` vector, the emitted warnings and the batches submitted to
`Store::buildPaths` are threaded as explicit state `St`.
-/

set_option linter.unusedVariables false

namespace FlakeCheck

/-- An error: the context frames pushed by the catch blocks of the source
(outermost first) and the base message. -/
structure Err where
  frames : List String
  msg : String
deriving Repr, DecidableEq

/-- Corresponds to `e.addPrefix(fmt(...))` in a catch block: one more context
frame on the way out. -/
def pushFrame (p : String) (e : Err) : Err :=
  { e with frames := p :: e.frames }

/-- An error with no context frames yet (a freshly thrown `Error(...)`). -/
def mkErr (m : String) : Err :=
  { frames := [], msg := m }

/-- Runs a computation inside a `try ... catch (Error & e) { e.addPrefix(p); throw; }`
block of the source. -/
def withFrame {α : Type} (p : String) (r : Except Err α) : Except Err α :=
  match r with
  | .error e => .error (pushFrame p e)
  | .ok a => .ok a

/-- Syntactic expressions, as far as the validators inspect them: only the
lambda head (`matchAttrs`, `formals->ellipsis`, `arg`) matters. -/
inductive Expr where
  | lam (matchAttrs : Bool) (ellipsis : Bool) (arg : String) (body : Expr)
  | other (tag : Nat)
deriving Repr, DecidableEq

/-- A lazy output node of the evaluator.  `fail` is a thunk whose forcing
throws an evaluation error; `attrs` is an attribute set (each attribute has a
name, a source position and a value); `drv` is an attribute set that the
evaluator recognizes as a derivation with the given derivation store path;
`lam` is a lambda value; `app` is a value accepted by the `App` constructor,
carrying its already decoded string context of (derivation path, output name)
pairs; `prim` is any other scalar. -/
inductive Node where
  | fail (msg : String)
  | attrs (es : List (String × Nat × Node))
  | drv (drvPath : String) (es : List (String × Nat × Node))
  | lam (matchAttrs : Bool) (ellipsis : Bool) (arg : String) (body : Expr)
  | app (context : List (String × String))
  | prim (tag : Nat)
deriving Repr

/-- `EvalState::forceValue`: evaluating a thunk either throws the evaluation
error or yields the value. -/
def forceValue (v : Node) (pos : Nat) : Except Err Node :=
  match v with
  | .fail msg => .error (mkErr msg)
  | v => .ok v

/-- `EvalState::forceAttrs`: force, then require an attribute set (a
derivation is an attribute set too), yielding its attributes. -/
def forceAttrs (v : Node) (pos : Nat) : Except Err (List (String × Nat × Node)) := do
  match ← forceValue v pos with
  | .attrs es => .ok es
  | .drv _ es => .ok es
  | _ => .error (mkErr ("value is not a set, at " ++ toString pos))

/-- `EvalState::isDerivation` on a forced value. -/
def isDerivation : Node → Bool
  | .drv _ _ => true
  | _ => false

/-- Modelled from the spec: `Store::parseStorePath` of the external store
collaborator; build-target descriptors are opaque identifiers, so parsing is
the identity here. -/
def parseStorePath (s : String) : String := s

/-- Modelled from the spec: `StorePath::isDerivation` of the external store
collaborator — whether a path denotes a derivation-like build target
(carries the `.drv` suffix). -/
def isDrvPath (p : String) : Bool := (".drv".toList).isSuffixOf p.toList

/-- `getDerivation(*state, v, false)` followed by `queryDrvPath`: force the
value; a derivation yields its derivation path, anything else yields none. -/
def getDerivation (v : Node) : Except Err (Option String) :=
  match v with
  | .fail msg => .error (mkErr msg)
  | .drv p _ => .ok (some p)
  | _ => .ok none

/-- The `checkSystemName` lambda: the name must contain the `-` separator
(`system.find('-') == std::string::npos` is the failure case). -/
def checkSystemName (system : String) (pos : Nat) : Except Err Unit :=
  if system.toList.contains '-' then .ok ()
  else .error (mkErr (system ++ " is not a valid system type, at " ++ toString pos))

/-- The `checkDerivation` lambda: the value must be a derivation; returns its
parsed store path; any error gains the derivation context frame. -/
def checkDerivation (attrPath : String) (v : Node) (pos : Nat) : Except Err String :=
  withFrame ("while checking the derivation " ++ attrPath ++ " at " ++ toString pos ++ ":")
    (do
      match ← getDerivation v with
      | none => .error (mkErr ("flake attribute " ++ attrPath ++ " is not a derivation"))
      | some p => .ok (parseStorePath p))

/-- Modelled from the spec: the `App` constructor of the external evaluator —
extracts the referenced (build path, output name) pairs of an app value and
fails on any other shape. -/
def appOf (v : Node) : Except Err (List (String × String)) :=
  match v with
  | .fail msg => .error (mkErr msg)
  | .app ctx => .ok ctx
  | _ => .error (mkErr "not an app")

/-- The loop body of `checkApp`: for every decoded context element keep the
parsed path when the output name is non-empty and the path is a derivation. -/
def appTargets : List (String × String) → List String
  | [] => []
  | (drvPathS, outputName) :: rest =>
      let drvPath := parseStorePath drvPathS
      (if outputName != "" && isDrvPath drvPath then [drvPath] else []) ++ appTargets rest

/-- The state threaded through a check run: the `drvPaths` vector, the
warnings emitted so far, and the batches submitted to `Store::buildPaths`. -/
structure St where
  drvPaths : List String
  warnings : List String
  submissions : List (List String)
deriving Repr, DecidableEq

/-- The `checkApp` lambda: build the `App`, then append every qualifying
context path to `drvPaths`; any error gains the app context frame. -/
def checkApp (attrPath : String) (v : Node) (pos : Nat) (s : St) : Except Err St :=
  withFrame ("while checking the app definition " ++ attrPath ++ " at " ++ toString pos ++ ":")
    (do
      let ctx ← appOf v
      .ok { s with drvPaths := s.drvPaths ++ appTargets ctx })

/-- The `checkOverlay` lambda: the forced value must be a lambda with plain
argument `final` whose body is syntactically a lambda with plain argument
`prev`; the bodies are never evaluated. -/
def checkOverlay (attrPath : String) (v : Node) (pos : Nat) : Except Err Unit :=
  withFrame ("while checking the overlay " ++ attrPath ++ " at " ++ toString pos ++ ":")
    (do
      match ← forceValue v pos with
      | .lam matchAttrs _ arg body =>
          if matchAttrs || arg != "final" then
            .error (mkErr "overlay does not take an argument named final")
          else
            match body with
            | .lam matchAttrs2 _ arg2 _ =>
                if matchAttrs2 || arg2 != "prev" then
                  .error (mkErr "overlay does not take an argument named prev")
                else .ok ()
            | _ => .error (mkErr "overlay does not take an argument named prev")
      | _ => .error (mkErr "overlay does not take an argument named final"))

/-- The attribute-set case of `checkModule`: force every option value, each
failure wrapped with its own option frame. -/
def checkModuleAttrs : List (String × Nat × Node) → Except Err Unit
  | [] => .ok ()
  | (name, pos, v) :: rest => do
      withFrame ("while evaluating the option " ++ name ++ " at " ++ toString pos ++ ":")
        (do
          let _ ← forceValue v pos
          .ok ())
      checkModuleAttrs rest

/-- The `checkModule` lambda: a lambda must match an open attribute set; an
attribute set has every value forced; anything else fails. -/
def checkModule (attrPath : String) (v : Node) (pos : Nat) : Except Err Unit :=
  withFrame ("while checking the NixOS module " ++ attrPath ++ " at " ++ toString pos ++ ":")
    (do
      match ← forceValue v pos with
      | .lam matchAttrs ellipsis _ _ =>
          if !matchAttrs || !ellipsis then
            .error (mkErr "module must match an open attribute set")
          else .ok ()
      | .attrs es => checkModuleAttrs es
      | .drv _ es => checkModuleAttrs es
      | _ => .error (mkErr "module must be a function or an attribute set"))

mutual

/-- The recursive `checkHydraJobs` lambda: force the value as an attribute
set, reject a derivation at top level, then handle every entry; any error
gains the jobset context frame. -/
def checkHydraJobs (attrPath : String) (v : Node) (pos : Nat) : Except Err Unit :=
  withFrame ("while checking the Hydra jobset " ++ attrPath ++ " at " ++ toString pos ++ ":")
    (match v with
     | .fail msg => .error (mkErr msg)
     | .drv _ _ => .error (mkErr "jobset should not be a derivation at top-level")
     | .attrs es => checkHydraJobsEntries attrPath es
     | _ => .error (mkErr ("value is not a set, at " ++ toString pos)))

/-- The entry loop of `checkHydraJobs`: force each value as an attribute set;
a derivation is a leaf, any other attribute set is a nested jobset checked
recursively with the attribute path extended by the entry name. -/
def checkHydraJobsEntries (attrPath : String) : List (String × Nat × Node) → Except Err Unit
  | [] => .ok ()
  | (name, pos, v) :: rest => do
      match v with
      | .fail msg => .error (mkErr msg)
      | .drv _ _ => .ok ()
      | .attrs _ => checkHydraJobs (attrPath ++ "." ++ name) v pos
      | _ => .error (mkErr ("value is not a set, at " ++ toString pos))
      checkHydraJobsEntries attrPath rest

end

/-- Attribute lookup by name in an attribute list (`Bindings::get`). -/
def lookupAttr (n : String) : List (String × Nat × Node) → Option (Nat × Node)
  | [] => none
  | (m, p, v) :: rest => if m = n then some (p, v) else lookupAttr n rest

/-- Modelled from the spec: `findAlongAttrPath` of the external evaluator —
fixed-path descent forcing each step, requiring an attribute set with the
named attribute at every component. -/
def findAlongAttrPath : List String → Node → Except Err Node
  | [], v => .ok v
  | n :: rest, v => do
      match ← forceValue v 0 with
      | .attrs es =>
          match lookupAttr n es with
          | some (_, v2) => findAlongAttrPath rest v2
          | none => .error (mkErr ("attribute " ++ n ++ " not found"))
      | .drv _ es =>
          match lookupAttr n es with
          | some (_, v2) => findAlongAttrPath rest v2
          | none => .error (mkErr ("attribute " ++ n ++ " not found"))
      | _ => .error (mkErr "expected a set")

/-- The `checkNixOSConfiguration` lambda: look up the fixed path
`config.system.build.toplevel`, force it as an attribute set and require a
derivation; any error gains the configuration context frame. -/
def checkNixOSConfiguration (attrPath : String) (v : Node) (pos : Nat) : Except Err Unit :=
  withFrame ("while checking the NixOS configuration " ++ attrPath ++ " at " ++ toString pos ++ ":")
    (do
      let vToplevel ← findAlongAttrPath ["config", "system", "build", "toplevel"] v
      let _ ← forceAttrs vToplevel pos
      if !isDerivation vToplevel then
        .error (mkErr "attribute config.system.build.toplevel is not a derivation")
      else .ok ())

/-- The inner loop of the `checks` branch: every entry must be a derivation;
its path joins `drvPaths` exactly when the enclosing system name equals the
current system. -/
def checksInner (thisSystem name sysName : String) :
    List (String × Nat × Node) → St → Except Err St
  | [], s => .ok s
  | (n2, p2, v2) :: rest, s => do
      let drvPath ← checkDerivation (name ++ "." ++ sysName ++ "." ++ n2) v2 p2
      let s := if sysName = thisSystem then { s with drvPaths := s.drvPaths ++ [drvPath] } else s
      checksInner thisSystem name sysName rest s

/-- The outer loop of the `checks` branch: validate each system name, force
the per-system attribute set, run the inner loop. -/
def checksOuter (thisSystem name : String) :
    List (String × Nat × Node) → St → Except Err St
  | [], s => .ok s
  | (sysName, p, v) :: rest, s => do
      checkSystemName sysName p
      let es ← forceAttrs v p
      let s ← checksInner thisSystem name sysName es s
      checksOuter thisSystem name rest s

/-- The inner loop of the `packages` branch: every entry must be a
derivation; nothing is collected. -/
def packagesInner (name sysName : String) : List (String × Nat × Node) → Except Err Unit
  | [] => .ok ()
  | (n2, p2, v2) :: rest => do
      let _ ← checkDerivation (name ++ "." ++ sysName ++ "." ++ n2) v2 p2
      packagesInner name sysName rest

/-- The outer loop of the `packages` branch. -/
def packagesOuter (name : String) : List (String × Nat × Node) → Except Err Unit
  | [] => .ok ()
  | (sysName, p, v) :: rest => do
      checkSystemName sysName p
      let es ← forceAttrs v p
      packagesInner name sysName es
      packagesOuter name rest

/-- The inner loop of the `apps` branch. -/
def appsInner (name sysName : String) : List (String × Nat × Node) → St → Except Err St
  | [], s => .ok s
  | (n2, p2, v2) :: rest, s => do
      let s ← checkApp (name ++ "." ++ sysName ++ "." ++ n2) v2 p2 s
      appsInner name sysName rest s

/-- The outer loop of the `apps` branch. -/
def appsOuter (name : String) : List (String × Nat × Node) → St → Except Err St
  | [], s => .ok s
  | (sysName, p, v) :: rest, s => do
      checkSystemName sysName p
      let es ← forceAttrs v p
      let s ← appsInner name sysName es s
      appsOuter name rest s

/-- The `defaultPackage` / `devShell` branch loop: one derivation per
system. -/
def perSystemDrv (name : String) : List (String × Nat × Node) → Except Err Unit
  | [] => .ok ()
  | (sysName, p, v) :: rest => do
      checkSystemName sysName p
      let _ ← checkDerivation (name ++ "." ++ sysName) v p
      perSystemDrv name rest

/-- The `defaultApp` branch loop: one app per system. -/
def perSystemApp (name : String) : List (String × Nat × Node) → St → Except Err St
  | [], s => .ok s
  | (sysName, p, v) :: rest, s => do
      checkSystemName sysName p
      let s ← checkApp (name ++ "." ++ sysName) v p s
      perSystemApp name rest s

/-- The `legacyPackages` branch loop: only the system names are validated;
the per-system values are never forced. -/
def legacyOuter : List (String × Nat × Node) → Except Err Unit
  | [] => .ok ()
  | (sysName, p, v) :: rest => do
      checkSystemName sysName p
      legacyOuter rest

/-- The `overlays` branch loop. -/
def overlaysLoop (name : String) : List (String × Nat × Node) → Except Err Unit
  | [] => .ok ()
  | (n, p, v) :: rest => do
      checkOverlay (name ++ "." ++ n) v p
      overlaysLoop name rest

/-- The `nixosModules` branch loop. -/
def modulesLoop (name : String) : List (String × Nat × Node) → Except Err Unit
  | [] => .ok ()
  | (n, p, v) :: rest => do
      checkModule (name ++ "." ++ n) v p
      modulesLoop name rest

/-- The `nixosConfigurations` branch loop. -/
def configsLoop (name : String) : List (String × Nat × Node) → Except Err Unit
  | [] => .ok ()
  | (n, p, v) :: rest => do
      checkNixOSConfiguration (name ++ "." ++ n) v p
      configsLoop name rest

/-- One iteration of the `enumerateOutputs` callback in `CmdFlakeCheck::run`:
force the output value, dispatch on the output name (in the order of the
source's if-else cascade), warn on an unknown name; any error gains the
flake-output context frame. -/
def checkOneOutput (thisSystem name : String) (vOutput : Node) (pos : Nat) (s : St) :
    Except Err St :=
  withFrame ("while checking flake output " ++ name ++ ":")
    (do
      let vOutput ← forceValue vOutput pos
      if name = "checks" then do
        let es ← forceAttrs vOutput pos
        checksOuter thisSystem name es s
      else if name = "packages" then do
        let es ← forceAttrs vOutput pos
        packagesOuter name es
        .ok s
      else if name = "apps" then do
        let es ← forceAttrs vOutput pos
        appsOuter name es s
      else if name = "defaultPackage" || name = "devShell" then do
        let es ← forceAttrs vOutput pos
        perSystemDrv name es
        .ok s
      else if name = "defaultApp" then do
        let es ← forceAttrs vOutput pos
        perSystemApp name es s
      else if name = "legacyPackages" then do
        let es ← forceAttrs vOutput pos
        legacyOuter es
        .ok s
      else if name = "overlay" then do
        checkOverlay name vOutput pos
        .ok s
      else if name = "overlays" then do
        let es ← forceAttrs vOutput pos
        overlaysLoop name es
        .ok s
      else if name = "nixosModule" then do
        checkModule name vOutput pos
        .ok s
      else if name = "nixosModules" then do
        let es ← forceAttrs vOutput pos
        modulesLoop name es
        .ok s
      else if name = "nixosConfigurations" then do
        let es ← forceAttrs vOutput pos
        configsLoop name es
        .ok s
      else if name = "hydraJobs" then do
        checkHydraJobs name vOutput pos
        .ok s
      else
        .ok { s with warnings := s.warnings ++ ["unknown flake output " ++ name] })

/-- The full dispatch pass over the forced top-level output mapping. -/
def forEachOutput (thisSystem : String) : List (String × Nat × Node) → St → Except Err St
  | [], s => .ok s
  | (name, pos, v) :: rest, s => do
      let s ← checkOneOutput thisSystem name v pos s
      forEachOutput thisSystem rest s

/-- Modelled from the spec: `Store::buildPaths` of the external build
backend, recorded here as one submitted batch. -/
def buildPaths (paths : List String) (s : St) : St :=
  { s with submissions := s.submissions ++ [paths] }

/-- `CmdFlakeCheck::run`: run the dispatch pass from the empty state; after
a successful pass submit `drvPaths` as one batch when building is enabled and
the collection is non-empty. -/
def checkOutputs (outputs : List (String × Nat × Node)) (thisSystem : String) (build : Bool) :
    Except Err St := do
  let s ← forEachOutput thisSystem outputs { drvPaths := [], warnings := [], submissions := [] }
  .ok (if build && !s.drvPaths.isEmpty then buildPaths s.drvPaths s else s)

/-- The batches the external Build Trigger received from a run: none when the
run aborted with an error. -/
def submittedBatches (r : Except Err St) : List (List String) :=
  match r with
  | .error _ => []
  | .ok s => s.submissions

/-- The closed set of recognized top-level output categories. -/
def knownOutputs : List String :=
  ["checks", "packages", "apps", "defaultPackage", "devShell", "defaultApp",
   "legacyPackages", "overlay", "overlays", "nixosModule", "nixosModules",
   "nixosConfigurations", "hydraJobs"]

/-- The categories whose subtrees are keyed by platform identifiers and
guarded by `checkSystemName`. -/
def platformOutputs : List String :=
  ["checks", "packages", "apps", "defaultPackage", "devShell", "defaultApp",
   "legacyPackages"]

/-! Shape predicates describing well-formed manifests, and the expected
contents of the Build Target Collector on such manifests. -/

/-- A syntactically plausible platform identifier: contains the separator. -/
def validSystem (s : String) : Bool := s.toList.contains '-'

/-- Whether a forced node is a derivation value. -/
def isDrvNode : Node → Bool
  | .drv _ _ => true
  | _ => false

/-- Whether a forced node is an app value. -/
def isAppNode : Node → Bool
  | .app _ => true
  | _ => false

/-- Whether forcing a node succeeds. -/
def notFail : Node → Bool
  | .fail _ => false
  | _ => true

/-- An attribute set whose every value satisfies `p`. -/
def attrsShape (p : Node → Bool) : Node → Bool
  | .attrs es => es.all (fun e => p e.2.2)
  | _ => false

/-- An attribute set keyed by valid platform identifiers whose every value
satisfies `p`. -/
def platformShape (p : Node → Bool) : Node → Bool
  | .attrs es => es.all (fun e => validSystem e.1 && p e.2.2)
  | _ => false

/-- The shape `checkOverlay` accepts: a plain-argument `final` lambda whose
body is syntactically a plain-argument `prev` lambda. -/
def overlayShape : Node → Bool
  | .lam ma _ arg body =>
      !ma && arg == "final" &&
        (match body with
         | .lam ma2 _ arg2 _ => !ma2 && arg2 == "prev"
         | _ => false)
  | _ => false

/-- The shape `checkModule` accepts: an open-pattern lambda, or an attribute
set all of whose values force successfully. -/
def moduleShape : Node → Bool
  | .lam ma el _ _ => ma && el
  | .attrs es => es.all (fun e => notFail e.2.2)
  | .drv _ es => es.all (fun e => notFail e.2.2)
  | _ => false

mutual

/-- The shape `checkHydraJobs` accepts: an attribute set (not itself a
derivation) whose entries are derivations or, recursively, jobsets. -/
def goodJobs : Node → Bool
  | .attrs es => goodJobsEntries es
  | _ => false

/-- Entry-wise jobset shape: a derivation leaf or a nested good jobset. -/
def goodJobsEntries : List (String × Nat × Node) → Bool
  | [] => true
  | (_, _, v) :: rest =>
      (match v with
       | .drv _ _ => true
       | _ => goodJobs v) && goodJobsEntries rest

end

/-- Whether the fixed attribute path ends at a derivation inside a node
(every step an attribute set containing the component). -/
def hasAttrPathDrv : List String → Node → Bool
  | [], v => isDerivation v
  | n :: rest, v =>
      match v with
      | .attrs es =>
          (match lookupAttr n es with
           | some (_, v2) => hasAttrPathDrv rest v2
           | none => false)
      | .drv _ es =>
          (match lookupAttr n es with
           | some (_, v2) => hasAttrPathDrv rest v2
           | none => false)
      | _ => false

/-- The shape `checkNixOSConfiguration` accepts. -/
def configShape (v : Node) : Bool :=
  hasAttrPathDrv ["config", "system", "build", "toplevel"] v

/-- Well-formedness of one recognized top-level output, by category. -/
def wfOutput (name : String) (v : Node) : Bool :=
  if name = "checks" then platformShape (attrsShape isDrvNode) v
  else if name = "packages" then platformShape (attrsShape isDrvNode) v
  else if name = "apps" then platformShape (attrsShape isAppNode) v
  else if name = "defaultPackage" || name = "devShell" then platformShape isDrvNode v
  else if name = "defaultApp" then platformShape isAppNode v
  else if name = "legacyPackages" then platformShape (fun _ => true) v
  else if name = "overlay" then overlayShape v
  else if name = "overlays" then attrsShape overlayShape v
  else if name = "nixosModule" then moduleShape v
  else if name = "nixosModules" then attrsShape moduleShape v
  else if name = "nixosConfigurations" then attrsShape configShape v
  else if name = "hydraJobs" then goodJobs v
  else false

/-- A well-formed manifest: only recognized categories, each correctly
shaped. -/
def wellFormed (outputs : List (String × Nat × Node)) : Bool :=
  outputs.all (fun o => wfOutput o.1 o.2.2)

/-- The attributes of a forced attribute-set node. -/
def attrsOf : Node → List (String × Nat × Node)
  | .attrs es => es
  | .drv _ es => es
  | _ => []

/-- The derivation paths of the derivation entries of an attribute list. -/
def drvPathsOf : List (String × Nat × Node) → List String
  | [] => []
  | (_, _, .drv p _) :: rest => p :: drvPathsOf rest
  | _ :: rest => drvPathsOf rest

/-- The build targets contributed by the `checks` output: the derivation
paths under the current platform only. -/
def checksTargets (thisSystem : String) : List (String × Nat × Node) → List String
  | [] => []
  | (sys, _, sv) :: rest =>
      (if sys = thisSystem then drvPathsOf (attrsOf sv) else []) ++ checksTargets thisSystem rest

/-- The build targets contributed by a list of app entries: every qualifying
context path, for every platform. -/
def appsTargetsInner : List (String × Nat × Node) → List String
  | [] => []
  | (_, _, .app ctx) :: rest => appTargets ctx ++ appsTargetsInner rest
  | _ :: rest => appsTargetsInner rest

/-- The build targets contributed by the `apps` output. -/
def appsTargetsOuter : List (String × Nat × Node) → List String
  | [] => []
  | (_, _, sv) :: rest => appsTargetsInner (attrsOf sv) ++ appsTargetsOuter rest

/-- The build targets one top-level output is expected to contribute. -/
def expectedTargets (thisSystem name : String) (v : Node) : List String :=
  if name = "checks" then checksTargets thisSystem (attrsOf v)
  else if name = "apps" then appsTargetsOuter (attrsOf v)
  else if name = "defaultApp" then appsTargetsInner (attrsOf v)
  else []

/-- The build targets a whole well-formed manifest is expected to collect, in
dispatch order. -/
def expectedAll (thisSystem : String) : List (String × Nat × Node) → List String
  | [] => []
  | (name, _, v) :: rest =>
      expectedTargets thisSystem name v ++ expectedAll thisSystem rest

/-! Basic lemmas about the embedding. -/

@[simp]
theorem error_bind {α β : Type} (e : Err) (f : α → Except Err β) :
    (Except.error e >>= f) = Except.error e := rfl

@[simp]
theorem ok_bind {α β : Type} (a : α) (f : α → Except Err β) :
    (Except.ok a >>= f) = f a := rfl

@[simp]
theorem withFrame_ok {α : Type} (p : String) (a : α) :
    withFrame p (Except.ok a) = Except.ok a := rfl

@[simp]
theorem withFrame_error {α : Type} (p : String) (e : Err) :
    withFrame p (Except.error e : Except Err α) = Except.error (pushFrame p e) := rfl

theorem checkSystemName_valid {sys : String} (p : Nat) (h : validSystem sys = true) :
    checkSystemName sys p = Except.ok () := by
  simp [checkSystemName, validSystem] at *
  simp [h]

theorem checkSystemName_invalid {sys : String} (p : Nat) (h : validSystem sys = false) :
    checkSystemName sys p
      = Except.error (mkErr (sys ++ " is not a valid system type, at " ++ toString p)) := by
  simp [checkSystemName, validSystem] at *
  simp [h]

theorem forceValue_notFail {v : Node} (p : Nat) (h : notFail v = true) :
    forceValue v p = Except.ok v := by
  cases v <;> simp_all [forceValue, notFail]

theorem checkDerivation_drv (a : String) (q : String) (es : List (String × Nat × Node))
    (p : Nat) : checkDerivation a (Node.drv q es) p = Except.ok q := rfl

theorem checkApp_app (a : String) (ctx : List (String × String)) (p : Nat) (s : St) :
    checkApp a (Node.app ctx) p s
      = Except.ok { s with drvPaths := s.drvPaths ++ appTargets ctx } := rfl

theorem forceAttrs_attrs (es : List (String × Nat × Node)) (p : Nat) :
    forceAttrs (Node.attrs es) p = Except.ok es := rfl

theorem forceAttrs_drv (q : String) (es : List (String × Nat × Node)) (p : Nat) :
    forceAttrs (Node.drv q es) p = Except.ok es := rfl

theorem withFrame_eq_ok {α : Type} {p : String} {r : Except Err α} {a : α} :
    withFrame p r = Except.ok a ↔ r = Except.ok a := by
  cases r <;> simp [withFrame]

/-! No validator ever touches the submission trace: only the final
`buildPaths` call of `checkOutputs` does. -/

theorem checkApp_submissions {a : String} {v : Node} {p : Nat} {s s' : St}
    (h : checkApp a v p s = Except.ok s') : s'.submissions = s.submissions := by
  unfold checkApp at h
  rw [withFrame_eq_ok] at h
  cases happ : appOf v <;> simp [happ] at h
  subst h
  rfl

theorem checksInner_submissions {t n sys : String} :
    ∀ {es : List (String × Nat × Node)} {s s' : St},
      checksInner t n sys es s = Except.ok s' → s'.submissions = s.submissions := by
  intro es
  induction es with
  | nil =>
      intro s s' h
      simp [checksInner] at h
      subst h
      rfl
  | cons e rest ih =>
      intro s s' h
      obtain ⟨n2, p2, v2⟩ := e
      simp only [checksInner] at h
      cases hcd : checkDerivation (n ++ "." ++ sys ++ "." ++ n2) v2 p2 <;>
        simp [hcd] at h
      have := ih h
      split at this <;> simpa using this

theorem checksOuter_submissions {t n : String} :
    ∀ {es : List (String × Nat × Node)} {s s' : St},
      checksOuter t n es s = Except.ok s' → s'.submissions = s.submissions := by
  intro es
  induction es with
  | nil =>
      intro s s' h
      simp [checksOuter] at h
      subst h
      rfl
  | cons e rest ih =>
      intro s s' h
      obtain ⟨sys, p, v⟩ := e
      simp only [checksOuter] at h
      cases hcs : checkSystemName sys p <;> rw [hcs] at h
      case error => simp at h
      simp only [ok_bind] at h
      cases hfa : forceAttrs v p with
      | error e2 => rw [hfa] at h; simp at h
      | ok es2 =>
          rw [hfa] at h
          simp only [ok_bind] at h
          cases hci : checksInner t n sys es2 s with
          | error e2 => rw [hci] at h; simp at h
          | ok s2 =>
              rw [hci] at h
              simp only [ok_bind] at h
              exact (ih h).trans (checksInner_submissions hci)

theorem appsInner_submissions {n sys : String} :
    ∀ {es : List (String × Nat × Node)} {s s' : St},
      appsInner n sys es s = Except.ok s' → s'.submissions = s.submissions := by
  intro es
  induction es with
  | nil =>
      intro s s' h
      simp [appsInner] at h
      subst h
      rfl
  | cons e rest ih =>
      intro s s' h
      obtain ⟨n2, p2, v2⟩ := e
      simp only [appsInner] at h
      cases hca : checkApp (n ++ "." ++ sys ++ "." ++ n2) v2 p2 s <;> simp [hca] at h
      exact (ih h).trans (checkApp_submissions hca)

theorem appsOuter_submissions {n : String} :
    ∀ {es : List (String × Nat × Node)} {s s' : St},
      appsOuter n es s = Except.ok s' → s'.submissions = s.submissions := by
  intro es
  induction es with
  | nil =>
      intro s s' h
      simp [appsOuter] at h
      subst h
      rfl
  | cons e rest ih =>
      intro s s' h
      obtain ⟨sys, p, v⟩ := e
      simp only [appsOuter] at h
      cases hcs : checkSystemName sys p <;> rw [hcs] at h
      case error => simp at h
      simp only [ok_bind] at h
      cases hfa : forceAttrs v p with
      | error e2 => rw [hfa] at h; simp at h
      | ok es2 =>
          rw [hfa] at h
          simp only [ok_bind] at h
          cases hai : appsInner n sys es2 s with
          | error e2 => rw [hai] at h; simp at h
          | ok s2 =>
              rw [hai] at h
              simp only [ok_bind] at h
              exact (ih h).trans (appsInner_submissions hai)

theorem perSystemApp_submissions {n : String} :
    ∀ {es : List (String × Nat × Node)} {s s' : St},
      perSystemApp n es s = Except.ok s' → s'.submissions = s.submissions := by
  intro es
  induction es with
  | nil =>
      intro s s' h
      simp [perSystemApp] at h
      subst h
      rfl
  | cons e rest ih =>
      intro s s' h
      obtain ⟨sys, p, v⟩ := e
      simp only [perSystemApp] at h
      cases hcs : checkSystemName sys p <;> simp [hcs] at h
      cases hca : checkApp (n ++ "." ++ sys) v p s <;> simp [hca] at h
      exact (ih h).trans (checkApp_submissions hca)

theorem bind_const_ok {β : Type} {g : Except Err β} {s s' : St}
    (h : (g >>= fun _ => Except.ok s) = Except.ok s') : s' = s := by
  cases g <;> simp at h
  exact h.symm

theorem bind_bind_const_ok {α β : Type} {f : Except Err α} {g : α → Except Err β} {s s' : St}
    (h : (f >>= fun x => g x >>= fun _ => Except.ok s) = Except.ok s') : s' = s := by
  cases f <;> simp at h
  case ok a =>
    cases hg : g a <;> rw [hg] at h <;> simp at h
    exact h.symm

theorem checkOneOutput_submissions {t name : String} {v : Node} {pos : Nat} {s s' : St}
    (h : checkOneOutput t name v pos s = Except.ok s') : s'.submissions = s.submissions := by
  unfold checkOneOutput at h
  rw [withFrame_eq_ok] at h
  cases hf : forceValue v pos with
  | error e => rw [hf] at h; simp at h
  | ok v2 =>
  rw [hf] at h
  simp only [ok_bind] at h
  by_cases h1 : name = "checks"
  · rw [if_pos h1] at h
    cases hfa : forceAttrs v2 pos with
    | error e => rw [hfa] at h; simp at h
    | ok es2 =>
        rw [hfa] at h
        simp only [ok_bind] at h
        exact checksOuter_submissions h
  rw [if_neg h1] at h
  by_cases h2 : name = "packages"
  · rw [if_pos h2] at h
    rw [bind_bind_const_ok h]
  rw [if_neg h2] at h
  by_cases h3 : name = "apps"
  · rw [if_pos h3] at h
    cases hfa : forceAttrs v2 pos with
    | error e => rw [hfa] at h; simp at h
    | ok es2 =>
        rw [hfa] at h
        simp only [ok_bind] at h
        exact appsOuter_submissions h
  rw [if_neg h3] at h
  by_cases h4 : name = "defaultPackage" ∨ name = "devShell"
  · rw [if_pos (by simpa using h4)] at h
    rw [bind_bind_const_ok h]
  rw [if_neg (by simpa using h4)] at h
  by_cases h5 : name = "defaultApp"
  · rw [if_pos h5] at h
    cases hfa : forceAttrs v2 pos with
    | error e => rw [hfa] at h; simp at h
    | ok es2 =>
        rw [hfa] at h
        simp only [ok_bind] at h
        exact perSystemApp_submissions h
  rw [if_neg h5] at h
  by_cases h6 : name = "legacyPackages"
  · rw [if_pos h6] at h
    rw [bind_bind_const_ok h]
  rw [if_neg h6] at h
  by_cases h7 : name = "overlay"
  · rw [if_pos h7] at h
    rw [bind_const_ok h]
  rw [if_neg h7] at h
  by_cases h8 : name = "overlays"
  · rw [if_pos h8] at h
    rw [bind_bind_const_ok h]
  rw [if_neg h8] at h
  by_cases h9 : name = "nixosModule"
  · rw [if_pos h9] at h
    rw [bind_const_ok h]
  rw [if_neg h9] at h
  by_cases h10 : name = "nixosModules"
  · rw [if_pos h10] at h
    rw [bind_bind_const_ok h]
  rw [if_neg h10] at h
  by_cases h11 : name = "nixosConfigurations"
  · rw [if_pos h11] at h
    rw [bind_bind_const_ok h]
  rw [if_neg h11] at h
  by_cases h12 : name = "hydraJobs"
  · rw [if_pos h12] at h
    rw [bind_const_ok h]
  rw [if_neg h12] at h
  cases h
  rfl

/-! Success characterization of the validators on well-formed subtrees. -/

theorem checksInner_wf {t n sys : String} :
    ∀ {es : List (String × Nat × Node)} (s : St),
      es.all (fun e => isDrvNode e.2.2) = true →
      checksInner t n sys es s
        = Except.ok { s with drvPaths :=
            s.drvPaths ++ (if sys = t then drvPathsOf es else []) } := by
  intro es
  induction es with
  | nil =>
      intro s h
      simp [checksInner, drvPathsOf]
  | cons e rest ih =>
      intro s h
      obtain ⟨n2, p2, v2⟩ := e
      simp only [List.all_cons, Bool.and_eq_true] at h
      obtain ⟨hd, hrest⟩ := h
      cases v2 <;> simp [isDrvNode] at hd
      case drv q es2 =>
        simp only [checksInner, checkDerivation_drv, ok_bind]
        rw [ih _ hrest]
        by_cases hst : sys = t
        · simp [hst, drvPathsOf]
        · simp [hst, drvPathsOf]

theorem checksOuter_wf {t n : String} :
    ∀ {es : List (String × Nat × Node)} (s : St),
      es.all (fun e => validSystem e.1 && attrsShape isDrvNode e.2.2) = true →
      checksOuter t n es s
        = Except.ok { s with drvPaths := s.drvPaths ++ checksTargets t es } := by
  intro es
  induction es with
  | nil =>
      intro s h
      simp [checksOuter, checksTargets]
  | cons e rest ih =>
      intro s h
      obtain ⟨sys, p, v⟩ := e
      simp only [List.all_cons, Bool.and_eq_true] at h
      obtain ⟨⟨hsys, hshape⟩, hrest⟩ := h
      cases v
      case attrs es2 =>
        simp only [attrsShape] at hshape
        simp only [checksOuter, checkSystemName_valid p hsys, ok_bind,
          forceAttrs_attrs]
        rw [checksInner_wf _ hshape, ok_bind, ih _ hrest]
        simp [checksTargets, attrsOf, List.append_assoc]
      all_goals simp [attrsShape] at hshape

theorem appsInner_wf {n sys : String} :
    ∀ {es : List (String × Nat × Node)} (s : St),
      es.all (fun e => isAppNode e.2.2) = true →
      appsInner n sys es s
        = Except.ok { s with drvPaths := s.drvPaths ++ appsTargetsInner es } := by
  intro es
  induction es with
  | nil =>
      intro s h
      simp [appsInner, appsTargetsInner]
  | cons e rest ih =>
      intro s h
      obtain ⟨n2, p2, v2⟩ := e
      simp only [List.all_cons, Bool.and_eq_true] at h
      obtain ⟨hd, hrest⟩ := h
      cases v2 <;> simp [isAppNode] at hd
      case app ctx =>
        simp only [appsInner, checkApp_app, ok_bind]
        rw [ih _ hrest]
        simp [appsTargetsInner, List.append_assoc]

theorem appsOuter_wf {n : String} :
    ∀ {es : List (String × Nat × Node)} (s : St),
      es.all (fun e => validSystem e.1 && attrsShape isAppNode e.2.2) = true →
      appsOuter n es s
        = Except.ok { s with drvPaths := s.drvPaths ++ appsTargetsOuter es } := by
  intro es
  induction es with
  | nil =>
      intro s h
      simp [appsOuter, appsTargetsOuter]
  | cons e rest ih =>
      intro s h
      obtain ⟨sys, p, v⟩ := e
      simp only [List.all_cons, Bool.and_eq_true] at h
      obtain ⟨⟨hsys, hshape⟩, hrest⟩ := h
      cases v
      case attrs es2 =>
        simp only [attrsShape] at hshape
        simp only [appsOuter, checkSystemName_valid p hsys, ok_bind, forceAttrs_attrs]
        rw [appsInner_wf _ hshape, ok_bind, ih _ hrest]
        simp [appsTargetsOuter, attrsOf, List.append_assoc]
      all_goals simp [attrsShape] at hshape

theorem perSystemDrv_wf {n : String} :
    ∀ {es : List (String × Nat × Node)},
      es.all (fun e => validSystem e.1 && isDrvNode e.2.2) = true →
      perSystemDrv n es = Except.ok () := by
  intro es
  induction es with
  | nil => intro h; simp [perSystemDrv]
  | cons e rest ih =>
      intro h
      obtain ⟨sys, p, v⟩ := e
      simp only [List.all_cons, Bool.and_eq_true] at h
      obtain ⟨⟨hsys, hshape⟩, hrest⟩ := h
      cases v <;> simp [isDrvNode] at hshape
      case drv q es2 =>
        simp only [perSystemDrv, checkSystemName_valid p hsys, ok_bind,
          checkDerivation_drv]
        exact ih hrest

theorem perSystemApp_wf {n : String} :
    ∀ {es : List (String × Nat × Node)} (s : St),
      es.all (fun e => validSystem e.1 && isAppNode e.2.2) = true →
      perSystemApp n es s
        = Except.ok { s with drvPaths := s.drvPaths ++ appsTargetsInner es } := by
  intro es
  induction es with
  | nil =>
      intro s h
      simp [perSystemApp, appsTargetsInner]
  | cons e rest ih =>
      intro s h
      obtain ⟨sys, p, v⟩ := e
      simp only [List.all_cons, Bool.and_eq_true] at h
      obtain ⟨⟨hsys, hshape⟩, hrest⟩ := h
      cases v <;> simp [isAppNode] at hshape
      case app ctx =>
        simp only [perSystemApp, checkSystemName_valid p hsys, ok_bind, checkApp_app]
        rw [ih _ hrest]
        simp [appsTargetsInner, List.append_assoc]

theorem legacyOuter_wf :
    ∀ {es : List (String × Nat × Node)},
      es.all (fun e => validSystem e.1) = true →
      legacyOuter es = Except.ok () := by
  intro es
  induction es with
  | nil => intro h; simp [legacyOuter]
  | cons e rest ih =>
      intro h
      obtain ⟨sys, p, v⟩ := e
      simp only [List.all_cons, Bool.and_eq_true] at h
      obtain ⟨hsys, hrest⟩ := h
      simp only [legacyOuter, checkSystemName_valid p hsys, ok_bind]
      exact ih hrest

theorem checkOverlay_ok_iff (a : String) (v : Node) (p : Nat) :
    (checkOverlay a v p = Except.ok () ↔ overlayShape v = true) := by
  cases v with
  | lam ma el arg body =>
      cases body with
      | lam ma2 el2 arg2 b2 =>
          cases ma <;> cases ma2 <;>
            by_cases harg : arg = "final" <;>
              by_cases harg2 : arg2 = "prev" <;>
                simp [checkOverlay, forceValue, overlayShape, withFrame, harg, harg2]
      | other tg =>
          cases ma <;> by_cases harg : arg = "final" <;>
            simp [checkOverlay, forceValue, overlayShape, withFrame, harg]
  | fail m => simp [checkOverlay, forceValue, overlayShape, withFrame]
  | attrs es => simp [checkOverlay, forceValue, overlayShape, withFrame]
  | drv q es => simp [checkOverlay, forceValue, overlayShape, withFrame]
  | app c => simp [checkOverlay, forceValue, overlayShape, withFrame]
  | prim g => simp [checkOverlay, forceValue, overlayShape, withFrame]

theorem overlaysLoop_wf {n : String} :
    ∀ {es : List (String × Nat × Node)},
      es.all (fun e => overlayShape e.2.2) = true →
      overlaysLoop n es = Except.ok () := by
  intro es
  induction es with
  | nil => intro h; simp [overlaysLoop]
  | cons e rest ih =>
      intro h
      obtain ⟨n2, p2, v2⟩ := e
      simp only [List.all_cons, Bool.and_eq_true] at h
      obtain ⟨hd, hrest⟩ := h
      simp only [overlaysLoop, (checkOverlay_ok_iff (n ++ "." ++ n2) v2 p2).2 hd, ok_bind]
      exact ih hrest

theorem checkModuleAttrs_wf :
    ∀ {es : List (String × Nat × Node)},
      es.all (fun e => notFail e.2.2) = true →
      checkModuleAttrs es = Except.ok () := by
  intro es
  induction es with
  | nil => intro h; simp [checkModuleAttrs]
  | cons e rest ih =>
      intro h
      obtain ⟨n2, p2, v2⟩ := e
      simp only [List.all_cons, Bool.and_eq_true] at h
      obtain ⟨hd, hrest⟩ := h
      simp only [checkModuleAttrs, forceValue_notFail p2 hd, ok_bind, withFrame_ok]
      exact ih hrest

theorem checkModule_wf (a : String) {v : Node} (p : Nat) (h : moduleShape v = true) :
    checkModule a v p = Except.ok () := by
  cases v
  case lam ma el arg body =>
      simp only [moduleShape, Bool.and_eq_true] at h
      simp [checkModule, forceValue, h.1, h.2, withFrame]
  case attrs es =>
      simp only [moduleShape] at h
      simp only [checkModule, forceValue, ok_bind]
      rw [checkModuleAttrs_wf h]
      rfl
  case drv q es =>
      simp only [moduleShape] at h
      simp only [checkModule, forceValue, ok_bind]
      rw [checkModuleAttrs_wf h]
      rfl
  all_goals simp [moduleShape] at h

theorem modulesLoop_wf {n : String} :
    ∀ {es : List (String × Nat × Node)},
      es.all (fun e => moduleShape e.2.2) = true →
      modulesLoop n es = Except.ok () := by
  intro es
  induction es with
  | nil => intro h; simp [modulesLoop]
  | cons e rest ih =>
      intro h
      obtain ⟨n2, p2, v2⟩ := e
      simp only [List.all_cons, Bool.and_eq_true] at h
      obtain ⟨hd, hrest⟩ := h
      simp only [modulesLoop, checkModule_wf (n ++ "." ++ n2) p2 hd, ok_bind]
      exact ih hrest

theorem bind_unit_ok_iff {x y : Except Err Unit} :
    (x >>= fun _ => y) = Except.ok () ↔ (x = Except.ok () ∧ y = Except.ok ()) := by
  cases x with
  | error e => simp
  | ok u => cases u; simp

theorem hydra_aux : ∀ k : Nat,
    (∀ (a : String) (v : Node) (p : Nat), sizeOf v ≤ k →
      (checkHydraJobs a v p = Except.ok () ↔ goodJobs v = true)) ∧
    (∀ (a : String) (es : List (String × Nat × Node)), sizeOf es ≤ k →
      (checkHydraJobsEntries a es = Except.ok () ↔ goodJobsEntries es = true)) := by
  intro k
  induction k using Nat.strong_induction_on with
  | _ k ih =>
    constructor
    · intro a v p hk
      cases v with
      | attrs es =>
          have hsz : sizeOf es < k := by
            have h1 : sizeOf (Node.attrs es) = 1 + sizeOf es := by simp
            omega
          have hent := (ih (sizeOf es) hsz).2 a es le_rfl
          have lhs_eq : checkHydraJobs a (Node.attrs es) p
              = withFrame ("while checking the Hydra jobset " ++ a ++ " at " ++ toString p ++ ":")
                  (checkHydraJobsEntries a es) := by
            simp [checkHydraJobs]
          rw [lhs_eq, withFrame_eq_ok]
          have rhs_eq : goodJobs (Node.attrs es) = goodJobsEntries es := by
            simp [goodJobs]
          rw [rhs_eq]
          exact hent
      | fail m => simp [checkHydraJobs, goodJobs, withFrame]
      | drv q es => simp [checkHydraJobs, goodJobs, withFrame]
      | lam ma el arg body => simp [checkHydraJobs, goodJobs, withFrame]
      | app c => simp [checkHydraJobs, goodJobs, withFrame]
      | prim g => simp [checkHydraJobs, goodJobs, withFrame]
    · intro a es hk
      cases es with
      | nil => simp [checkHydraJobsEntries, goodJobsEntries]
      | cons e rest =>
          obtain ⟨n2, p2, v2⟩ := e
          have hrest : sizeOf rest < k := by
            simp only [List.cons.sizeOf_spec, Prod.mk.sizeOf_spec] at hk
            omega
          have hv2 : sizeOf v2 < k := by
            simp only [List.cons.sizeOf_spec, Prod.mk.sizeOf_spec] at hk
            omega
          have hrest2 := (ih _ hrest).2 a rest le_rfl
          cases v2 with
          | drv q es2 =>
              have lhs_eq : checkHydraJobsEntries a ((n2, p2, Node.drv q es2) :: rest)
                  = checkHydraJobsEntries a rest := by
                simp [checkHydraJobsEntries]
              have rhs_eq : goodJobsEntries ((n2, p2, Node.drv q es2) :: rest)
                  = goodJobsEntries rest := by
                simp [goodJobsEntries]
              rw [lhs_eq, rhs_eq]
              exact hrest2
          | attrs es2 =>
              have hh := (ih _ hv2).1 (a ++ "." ++ n2) (Node.attrs es2) p2 le_rfl
              have lhs_eq : checkHydraJobsEntries a ((n2, p2, Node.attrs es2) :: rest)
                  = (checkHydraJobs (a ++ "." ++ n2) (Node.attrs es2) p2 >>= fun _ =>
                      checkHydraJobsEntries a rest) := by
                simp [checkHydraJobsEntries]
              have rhs_eq : goodJobsEntries ((n2, p2, Node.attrs es2) :: rest)
                  = (goodJobs (Node.attrs es2) && goodJobsEntries rest) := by
                simp [goodJobsEntries]
              rw [lhs_eq, bind_unit_ok_iff, rhs_eq, Bool.and_eq_true]
              exact and_congr hh hrest2
          | fail m => simp [checkHydraJobsEntries, goodJobsEntries, goodJobs]
          | lam ma el arg body => simp [checkHydraJobsEntries, goodJobsEntries, goodJobs]
          | app c => simp [checkHydraJobsEntries, goodJobsEntries, goodJobs]
          | prim g => simp [checkHydraJobsEntries, goodJobsEntries, goodJobs]

theorem checkHydraJobs_ok_iff (a : String) (v : Node) (p : Nat) :
    checkHydraJobs a v p = Except.ok () ↔ goodJobs v = true :=
  (hydra_aux (sizeOf v)).1 a v p le_rfl

theorem hasAttrPathDrv_iff :
    ∀ (path : List String) (v : Node),
      hasAttrPathDrv path v = true
        ↔ ∃ q es, findAlongAttrPath path v = Except.ok (Node.drv q es) := by
  intro path
  induction path with
  | nil =>
      intro v
      cases v <;> simp [hasAttrPathDrv, findAlongAttrPath, isDerivation]
  | cons n rest ih =>
      intro v
      cases v with
      | attrs es =>
          simp only [hasAttrPathDrv, findAlongAttrPath, forceValue, ok_bind]
          cases hl : lookupAttr n es with
          | none => simp
          | some pv =>
              obtain ⟨p2, v2⟩ := pv
              exact ih v2
      | drv q es =>
          simp only [hasAttrPathDrv, findAlongAttrPath, forceValue, ok_bind]
          cases hl : lookupAttr n es with
          | none => simp
          | some pv =>
              obtain ⟨p2, v2⟩ := pv
              exact ih v2
      | fail m => simp [hasAttrPathDrv, findAlongAttrPath, forceValue]
      | lam ma el arg body => simp [hasAttrPathDrv, findAlongAttrPath, forceValue]
      | app c => simp [hasAttrPathDrv, findAlongAttrPath, forceValue]
      | prim g => simp [hasAttrPathDrv, findAlongAttrPath, forceValue]

theorem withFrame_eq_error {α : Type} {p : String} {r : Except Err α} {e : Err} :
    withFrame p r = Except.error e ↔ ∃ e0, r = Except.error e0 ∧ e = pushFrame p e0 := by
  cases r <;> simp [withFrame]
  exact eq_comm

theorem findAlongAttrPath_error_frames :
    ∀ (path : List String) (v : Node) {e : Err},
      findAlongAttrPath path v = Except.error e → e.frames = [] := by
  intro path
  induction path with
  | nil => intro v e h; simp [findAlongAttrPath] at h
  | cons n rest ih =>
      intro v e h
      cases v with
      | fail m =>
          simp [findAlongAttrPath, forceValue, mkErr] at h
          rw [← h]
      | attrs es =>
          simp only [findAlongAttrPath, forceValue, ok_bind] at h
          cases hl : lookupAttr n es with
          | none => rw [hl] at h; simp [mkErr] at h; rw [← h]
          | some pv =>
              obtain ⟨p2, v2⟩ := pv
              rw [hl] at h
              exact ih v2 h
      | drv q es =>
          simp only [findAlongAttrPath, forceValue, ok_bind] at h
          cases hl : lookupAttr n es with
          | none => rw [hl] at h; simp [mkErr] at h; rw [← h]
          | some pv =>
              obtain ⟨p2, v2⟩ := pv
              rw [hl] at h
              exact ih v2 h
      | lam ma el arg body => simp [findAlongAttrPath, forceValue, mkErr] at h; rw [← h]
      | app c => simp [findAlongAttrPath, forceValue, mkErr] at h; rw [← h]
      | prim g => simp [findAlongAttrPath, forceValue, mkErr] at h; rw [← h]

theorem forceAttrs_error_frames {v : Node} {p : Nat} {e : Err}
    (h : forceAttrs v p = Except.error e) : e.frames = [] := by
  cases v <;> simp [forceAttrs, forceValue, mkErr] at h <;> rw [← h]

theorem checkNixOSConfiguration_ok_iff (a : String) (v : Node) (p : Nat) :
    checkNixOSConfiguration a v p = Except.ok () ↔ configShape v = true := by
  unfold checkNixOSConfiguration configShape
  rw [withFrame_eq_ok]
  cases hf : findAlongAttrPath ["config", "system", "build", "toplevel"] v with
  | error e =>
      simp only [hf, error_bind]
      constructor
      · intro h; exact absurd h (by simp)
      · intro h
        exfalso
        obtain ⟨q, es, hok⟩ := (hasAttrPathDrv_iff _ v).1 h
        rw [hok] at hf
        cases hf
  | ok vT =>
      simp only [hf, ok_bind]
      cases vT with
      | drv q es =>
          simp only [forceAttrs_drv, ok_bind, isDerivation, Bool.not_true]
          constructor
          · intro h; exact (hasAttrPathDrv_iff _ v).2 ⟨q, es, hf⟩
          · intro h; simp
      | attrs es =>
          simp only [forceAttrs_attrs, ok_bind, isDerivation, Bool.not_false]
          constructor
          · intro h; exact absurd h (by simp)
          · intro h
            exfalso
            obtain ⟨q, es2, hok⟩ := (hasAttrPathDrv_iff _ v).1 h
            rw [hok] at hf
            cases hf
      | fail m =>
          simp only [forceAttrs, forceValue, error_bind]
          constructor
          · intro h; exact absurd h (by simp)
          · intro h
            exfalso
            obtain ⟨q, es2, hok⟩ := (hasAttrPathDrv_iff _ v).1 h
            rw [hok] at hf
            cases hf
      | lam ma el arg body =>
          simp only [forceAttrs, forceValue, error_bind]
          constructor
          · intro h; exact absurd h (by simp)
          · intro h
            exfalso
            obtain ⟨q, es2, hok⟩ := (hasAttrPathDrv_iff _ v).1 h
            rw [hok] at hf
            cases hf
      | app c =>
          simp only [forceAttrs, forceValue, error_bind]
          constructor
          · intro h; exact absurd h (by simp)
          · intro h
            exfalso
            obtain ⟨q, es2, hok⟩ := (hasAttrPathDrv_iff _ v).1 h
            rw [hok] at hf
            cases hf
      | prim g =>
          simp only [forceAttrs, forceValue, error_bind]
          constructor
          · intro h; exact absurd h (by simp)
          · intro h
            exfalso
            obtain ⟨q, es2, hok⟩ := (hasAttrPathDrv_iff _ v).1 h
            rw [hok] at hf
            cases hf

theorem checkNixOSConfiguration_error_frames {a : String} {v : Node} {p : Nat} {e : Err}
    (h : checkNixOSConfiguration a v p = Except.error e) :
    e.frames
      = ["while checking the NixOS configuration " ++ a ++ " at " ++ toString p ++ ":"] := by
  unfold checkNixOSConfiguration at h
  rw [withFrame_eq_error] at h
  obtain ⟨e0, hinner, he⟩ := h
  subst he
  have h0 : e0.frames = [] := by
    cases hf : findAlongAttrPath ["config", "system", "build", "toplevel"] v with
    | error e1 =>
        rw [hf] at hinner
        simp at hinner
        rw [← hinner]
        exact findAlongAttrPath_error_frames _ v hf
    | ok vT =>
        rw [hf] at hinner
        simp only [ok_bind] at hinner
        cases hfa : forceAttrs vT p with
        | error e1 =>
            rw [hfa] at hinner
            simp at hinner
            rw [← hinner]
            exact forceAttrs_error_frames hfa
        | ok es2 =>
            rw [hfa] at hinner
            simp only [ok_bind] at hinner
            cases hd : isDerivation vT <;> rw [hd] at hinner <;> simp [mkErr] at hinner
            rw [← hinner]
  simp [pushFrame, h0]

theorem configsLoop_wf {n : String} :
    ∀ {es : List (String × Nat × Node)},
      es.all (fun e => configShape e.2.2) = true →
      configsLoop n es = Except.ok () := by
  intro es
  induction es with
  | nil => intro h; simp [configsLoop]
  | cons e rest ih =>
      intro h
      obtain ⟨n2, p2, v2⟩ := e
      simp only [List.all_cons, Bool.and_eq_true] at h
      obtain ⟨hd, hrest⟩ := h
      simp only [configsLoop,
        (checkNixOSConfiguration_ok_iff (n ++ "." ++ n2) v2 p2).2 hd, ok_bind]
      exact ih hrest

theorem packagesInner_wf {n sys : String} :
    ∀ {es : List (String × Nat × Node)},
      es.all (fun e => isDrvNode e.2.2) = true →
      packagesInner n sys es = Except.ok () := by
  intro es
  induction es with
  | nil => intro h; simp [packagesInner]
  | cons e rest ih =>
      intro h
      obtain ⟨n2, p2, v2⟩ := e
      simp only [List.all_cons, Bool.and_eq_true] at h
      obtain ⟨hd, hrest⟩ := h
      cases v2 <;> simp [isDrvNode] at hd
      case drv q es2 =>
        simp only [packagesInner, checkDerivation_drv, ok_bind]
        exact ih hrest

theorem packagesOuter_wf {n : String} :
    ∀ {es : List (String × Nat × Node)},
      es.all (fun e => validSystem e.1 && attrsShape isDrvNode e.2.2) = true →
      packagesOuter n es = Except.ok () := by
  intro es
  induction es with
  | nil => intro h; simp [packagesOuter]
  | cons e rest ih =>
      intro h
      obtain ⟨sys, p, v⟩ := e
      simp only [List.all_cons, Bool.and_eq_true] at h
      obtain ⟨⟨hsys, hshape⟩, hrest⟩ := h
      cases v
      case attrs es2 =>
        simp only [attrsShape] at hshape
        simp only [packagesOuter, checkSystemName_valid p hsys, ok_bind, forceAttrs_attrs]
        rw [packagesInner_wf hshape]
        simp only [ok_bind]
        exact ih hrest
      all_goals simp [attrsShape] at hshape

theorem platformShape_attrs {p : Node → Bool} {v : Node} (h : platformShape p v = true) :
    ∃ es, v = Node.attrs es ∧ es.all (fun e => validSystem e.1 && p e.2.2) = true := by
  cases v with
  | attrs es => exact ⟨es, rfl, by simpa [platformShape] using h⟩
  | fail m => simp [platformShape] at h
  | drv q es => simp [platformShape] at h
  | lam ma el arg body => simp [platformShape] at h
  | app c => simp [platformShape] at h
  | prim g => simp [platformShape] at h

theorem attrsShape_attrs {p : Node → Bool} {v : Node} (h : attrsShape p v = true) :
    ∃ es, v = Node.attrs es ∧ es.all (fun e => p e.2.2) = true := by
  cases v with
  | attrs es => exact ⟨es, rfl, by simpa [attrsShape] using h⟩
  | fail m => simp [attrsShape] at h
  | drv q es => simp [attrsShape] at h
  | lam ma el arg body => simp [attrsShape] at h
  | app c => simp [attrsShape] at h
  | prim g => simp [attrsShape] at h

theorem checkOneOutput_wf {t name : String} {v : Node} (pos : Nat) (s : St)
    (h : wfOutput name v = true) :
    checkOneOutput t name v pos s
      = Except.ok { s with drvPaths := s.drvPaths ++ expectedTargets t name v } := by
  by_cases h1 : name = "checks"
  · subst h1
    obtain ⟨es, rfl, hw⟩ := platformShape_attrs (by simpa [wfOutput] using h)
    simp only [checkOneOutput]
    rw [show forceValue (Node.attrs es) pos = Except.ok (Node.attrs es) from rfl]
    simp only [ok_bind, String.reduceEq, decide_False, decide_True, Bool.or_self,
      Bool.or_true, Bool.false_or, Bool.true_or, Bool.false_eq_true, reduceIte]
    rw [forceAttrs_attrs]
    simp only [ok_bind]
    rw [checksOuter_wf s hw]
    simp [expectedTargets, attrsOf]
  by_cases h2 : name = "packages"
  · subst h2
    obtain ⟨es, rfl, hw⟩ := platformShape_attrs (by simpa [wfOutput] using h)
    simp only [checkOneOutput]
    rw [show forceValue (Node.attrs es) pos = Except.ok (Node.attrs es) from rfl]
    simp only [ok_bind, String.reduceEq, decide_False, decide_True, Bool.or_self,
      Bool.or_true, Bool.false_or, Bool.true_or, Bool.false_eq_true, reduceIte]
    rw [forceAttrs_attrs]
    simp only [ok_bind]
    rw [packagesOuter_wf hw]
    simp [expectedTargets]
  by_cases h3 : name = "apps"
  · subst h3
    obtain ⟨es, rfl, hw⟩ := platformShape_attrs (by simpa [wfOutput] using h)
    simp only [checkOneOutput]
    rw [show forceValue (Node.attrs es) pos = Except.ok (Node.attrs es) from rfl]
    simp only [ok_bind, String.reduceEq, decide_False, decide_True, Bool.or_self,
      Bool.or_true, Bool.false_or, Bool.true_or, Bool.false_eq_true, reduceIte]
    rw [forceAttrs_attrs]
    simp only [ok_bind]
    rw [appsOuter_wf s hw]
    simp [expectedTargets, attrsOf]
  by_cases h4 : name = "defaultPackage" ∨ name = "devShell"
  · have hw0 : platformShape isDrvNode v = true := by
      rcases h4 with h4 | h4 <;> subst h4 <;> simpa [wfOutput] using h
    obtain ⟨es, rfl, hw⟩ := platformShape_attrs hw0
    have hexp : expectedTargets t name (Node.attrs es) = [] := by
      rcases h4 with h4 | h4 <;> subst h4 <;> simp [expectedTargets]
    rcases h4 with h4 | h4 <;> subst h4 <;>
      (simp only [checkOneOutput]
       rw [show forceValue (Node.attrs es) pos = Except.ok (Node.attrs es) from rfl]
       simp only [ok_bind, String.reduceEq, decide_False, decide_True, Bool.or_self,
         Bool.or_true, Bool.false_or, Bool.true_or, Bool.false_eq_true, reduceIte]
       rw [forceAttrs_attrs]
       simp only [ok_bind]
       rw [perSystemDrv_wf hw]
       simp only [ok_bind, withFrame_ok]
       simp [hexp])
  by_cases h5 : name = "defaultApp"
  · subst h5
    obtain ⟨es, rfl, hw⟩ := platformShape_attrs (by simpa [wfOutput] using h)
    simp only [checkOneOutput]
    rw [show forceValue (Node.attrs es) pos = Except.ok (Node.attrs es) from rfl]
    simp only [ok_bind, String.reduceEq, decide_False, decide_True, Bool.or_self,
      Bool.or_true, Bool.false_or, Bool.true_or, Bool.false_eq_true, reduceIte]
    rw [forceAttrs_attrs]
    simp only [ok_bind]
    rw [perSystemApp_wf s hw]
    simp [expectedTargets, attrsOf]
  by_cases h6 : name = "legacyPackages"
  · subst h6
    obtain ⟨es, rfl, hw⟩ := platformShape_attrs (by simpa [wfOutput] using h)
    have hw2 : es.all (fun e => validSystem e.1) = true := by
      rw [List.all_eq_true] at hw ⊢
      intro e he
      simpa using hw e he
    simp only [checkOneOutput]
    rw [show forceValue (Node.attrs es) pos = Except.ok (Node.attrs es) from rfl]
    simp only [ok_bind, String.reduceEq, decide_False, decide_True, Bool.or_self,
      Bool.or_true, Bool.false_or, Bool.true_or, Bool.false_eq_true, reduceIte]
    rw [forceAttrs_attrs]
    simp only [ok_bind]
    rw [legacyOuter_wf hw2]
    simp [expectedTargets]
  by_cases h7 : name = "overlay"
  · subst h7
    have hw : overlayShape v = true := by simpa [wfOutput] using h
    have hnf : notFail v = true := by
      cases v <;> simp_all [overlayShape, notFail]
    simp only [checkOneOutput]
    rw [forceValue_notFail pos hnf]
    simp only [ok_bind, String.reduceEq, decide_False, decide_True, Bool.or_self,
      Bool.or_true, Bool.false_or, Bool.true_or, Bool.false_eq_true, reduceIte]
    rw [(checkOverlay_ok_iff "overlay" v pos).2 hw]
    simp [expectedTargets]
  by_cases h8 : name = "overlays"
  · subst h8
    obtain ⟨es, rfl, hw⟩ := attrsShape_attrs (by simpa [wfOutput] using h)
    simp only [checkOneOutput]
    rw [show forceValue (Node.attrs es) pos = Except.ok (Node.attrs es) from rfl]
    simp only [ok_bind, String.reduceEq, decide_False, decide_True, Bool.or_self,
      Bool.or_true, Bool.false_or, Bool.true_or, Bool.false_eq_true, reduceIte]
    rw [forceAttrs_attrs]
    simp only [ok_bind]
    rw [overlaysLoop_wf hw]
    simp [expectedTargets]
  by_cases h9 : name = "nixosModule"
  · subst h9
    have hw : moduleShape v = true := by simpa [wfOutput] using h
    have hnf : notFail v = true := by
      cases v <;> simp_all [moduleShape, notFail]
    simp only [checkOneOutput]
    rw [forceValue_notFail pos hnf]
    simp only [ok_bind, String.reduceEq, decide_False, decide_True, Bool.or_self,
      Bool.or_true, Bool.false_or, Bool.true_or, Bool.false_eq_true, reduceIte]
    rw [checkModule_wf "nixosModule" pos hw]
    simp [expectedTargets]
  by_cases h10 : name = "nixosModules"
  · subst h10
    obtain ⟨es, rfl, hw⟩ := attrsShape_attrs (by simpa [wfOutput] using h)
    simp only [checkOneOutput]
    rw [show forceValue (Node.attrs es) pos = Except.ok (Node.attrs es) from rfl]
    simp only [ok_bind, String.reduceEq, decide_False, decide_True, Bool.or_self,
      Bool.or_true, Bool.false_or, Bool.true_or, Bool.false_eq_true, reduceIte]
    rw [forceAttrs_attrs]
    simp only [ok_bind]
    rw [modulesLoop_wf hw]
    simp [expectedTargets]
  by_cases h11 : name = "nixosConfigurations"
  · subst h11
    obtain ⟨es, rfl, hw⟩ := attrsShape_attrs (by simpa [wfOutput] using h)
    simp only [checkOneOutput]
    rw [show forceValue (Node.attrs es) pos = Except.ok (Node.attrs es) from rfl]
    simp only [ok_bind, String.reduceEq, decide_False, decide_True, Bool.or_self,
      Bool.or_true, Bool.false_or, Bool.true_or, Bool.false_eq_true, reduceIte]
    rw [forceAttrs_attrs]
    simp only [ok_bind]
    rw [configsLoop_wf hw]
    simp [expectedTargets]
  by_cases h12 : name = "hydraJobs"
  · subst h12
    have hw : goodJobs v = true := by simpa [wfOutput] using h
    have hnf : notFail v = true := by
      cases v with
      | fail m => rw [show goodJobs (Node.fail m) = false from by simp [goodJobs]] at hw; cases hw
      | attrs es => rfl
      | drv q es => rfl
      | lam ma el arg body => rfl
      | app c => rfl
      | prim g => rfl
    simp only [checkOneOutput]
    rw [forceValue_notFail pos hnf]
    simp only [ok_bind, String.reduceEq, decide_False, decide_True, Bool.or_self,
      Bool.or_true, Bool.false_or, Bool.true_or, Bool.false_eq_true, reduceIte]
    rw [(checkHydraJobs_ok_iff "hydraJobs" v pos).2 hw]
    simp [expectedTargets]
  · exfalso
    revert h
    simp [wfOutput, h1, h2, h3, h5, h6, h7, h8, h9, h10, h11, h12,
      (by simpa using h4 : ¬ (name = "defaultPackage" ∨ name = "devShell"))]

theorem forEachOutput_submissions {t : String} :
    ∀ {outputs : List (String × Nat × Node)} {s s' : St},
      forEachOutput t outputs s = Except.ok s' → s'.submissions = s.submissions := by
  intro outputs
  induction outputs with
  | nil =>
      intro s s' h
      simp [forEachOutput] at h
      subst h
      rfl
  | cons o rest ih =>
      intro s s' h
      obtain ⟨name, pos, v⟩ := o
      simp only [forEachOutput] at h
      cases hco : checkOneOutput t name v pos s <;> simp [hco] at h
      exact (ih h).trans (checkOneOutput_submissions hco)

theorem forEachOutput_wf {t : String} :
    ∀ {outputs : List (String × Nat × Node)} (s : St),
      wellFormed outputs = true →
      forEachOutput t outputs s
        = Except.ok { s with drvPaths := s.drvPaths ++ expectedAll t outputs } := by
  intro outputs
  induction outputs with
  | nil => intro s h; simp [forEachOutput, expectedAll]
  | cons o rest ih =>
      intro s h
      obtain ⟨name, pos, v⟩ := o
      simp only [wellFormed, List.all_cons, Bool.and_eq_true] at h
      obtain ⟨hd, hrest⟩ := h
      simp only [forEachOutput]
      rw [checkOneOutput_wf pos s hd]
      simp only [ok_bind]
      rw [ih _ (by simpa [wellFormed] using hrest)]
      simp [expectedAll, List.append_assoc]

/-! The claim theorems. -/

/-- Claim C1: for every well-formed manifest containing only recognized
categories with correctly shaped entries, the check succeeds and the Build
Target Collector contains exactly the derivation paths of the
`checks.<platform>.<name>` entries whose platform equals the current
platform, plus, for every `apps`/`defaultApp` entry, each derivation path in
its context whose output name is non-empty and whose path denotes a
derivation (the apps collection is not platform-filtered). -/
theorem checkOutputs_wellFormed_collects (outputs : List (String × Nat × Node))
    (t : String) (b : Bool) (h : wellFormed outputs = true) :
    ∃ s', checkOutputs outputs t b = Except.ok s'
      ∧ s'.drvPaths = expectedAll t outputs := by
  unfold checkOutputs
  rw [forEachOutput_wf _ h]
  simp only [ok_bind]
  refine ⟨_, rfl, ?_⟩
  split <;> simp [buildPaths]

/-- Witness for C1: a concrete manifest with one current-platform check and
one app; the collector receives both derivation paths. -/
theorem checkOutputs_wellFormed_collects_witness :
    wellFormed
        [("checks", 0, Node.attrs
            [("x86_64-linux", 1, Node.attrs [("unit", 2, Node.drv "unit.drv" [])])]),
         ("apps", 3, Node.attrs
            [("x86_64-linux", 4, Node.attrs
                [("hello", 5, Node.app [("hello.drv", "out")])])])] = true
    ∧ ∃ s', checkOutputs
        [("checks", 0, Node.attrs
            [("x86_64-linux", 1, Node.attrs [("unit", 2, Node.drv "unit.drv" [])])]),
         ("apps", 3, Node.attrs
            [("x86_64-linux", 4, Node.attrs
                [("hello", 5, Node.app [("hello.drv", "out")])])])]
        "x86_64-linux" true = Except.ok s'
      ∧ s'.drvPaths = expectedAll "x86_64-linux"
          [("checks", 0, Node.attrs
              [("x86_64-linux", 1, Node.attrs [("unit", 2, Node.drv "unit.drv" [])])]),
           ("apps", 3, Node.attrs
              [("x86_64-linux", 4, Node.attrs
                  [("hello", 5, Node.app [("hello.drv", "out")])])])] :=
  ⟨by rfl, checkOutputs_wellFormed_collects _ _ _ (by rfl)⟩

/-- Claim C2 counterexample: the Collector is a vector, not a set — two app
entries referencing the same derivation produce a duplicate descriptor, and
the entries are collected although their platform segment (`x86_64-linux`)
differs from the current platform (`aarch64-linux`). -/
theorem collector_set_invariant_cex :
    ∃ s', checkOutputs
        [("apps", 0, Node.attrs
            [("x86_64-linux", 0, Node.attrs
                [("a", 0, Node.app [("foo.drv", "out")]),
                 ("b", 0, Node.app [("foo.drv", "out")])])])]
        "aarch64-linux" false = Except.ok s'
      ∧ s'.drvPaths = ["foo.drv", "foo.drv"]
      ∧ ¬ s'.drvPaths.Nodup := by
  refine ⟨_, rfl, rfl, by decide⟩

/-- Claim C2 (amended): insertion into the Collector is an append, not an
idempotent set insertion — `checkApp` appends every qualifying context path
even when it is already present, and it does so for any platform segment (no
platform input reaches it); only the `checks` collection is filtered to the
current platform. -/
theorem collector_append_not_filtered (a : String) (ctx : List (String × String))
    (p : Nat) (s : St) :
    checkApp a (Node.app ctx) p s
      = Except.ok { s with drvPaths := s.drvPaths ++ appTargets ctx } :=
  checkApp_app a ctx p s

/-- Claim C3: the Build Trigger receives exactly one batch — the full
collected set — when the pass succeeds, building is enabled and the set is
non-empty; it receives nothing when building is disabled, when the set is
empty, or when any validator fails (collected descriptors are discarded). -/
theorem buildTrigger_single_batch (outputs : List (String × Nat × Node))
    (t : String) (b : Bool) :
    submittedBatches (checkOutputs outputs t b)
      = match checkOutputs outputs t b with
        | .error _ => []
        | .ok s => if b && !s.drvPaths.isEmpty then [s.drvPaths] else [] := by
  unfold checkOutputs
  cases hfe : forEachOutput t outputs { drvPaths := [], warnings := [], submissions := [] } with
  | error e => simp [submittedBatches]
  | ok s0 =>
      simp only [ok_bind]
      have hsub : s0.submissions = [] := forEachOutput_submissions hfe
      by_cases hc : (b && !s0.drvPaths.isEmpty) = true
      · simp [submittedBatches, hc, buildPaths, hsub]
      · have hc2 : (b && !s0.drvPaths.isEmpty) = false := by
          revert hc; cases (b && !s0.drvPaths.isEmpty) <;> simp
        simp [submittedBatches, hc2, hsub]

/-- Witness for C3 at a concrete manifest with one current-platform check. -/
theorem buildTrigger_single_batch_witness :
    submittedBatches (checkOutputs
        [("checks", 0, Node.attrs
            [("x86_64-linux", 1, Node.attrs [("unit", 2, Node.drv "unit.drv" [])])])]
        "x86_64-linux" true)
      = match checkOutputs
            [("checks", 0, Node.attrs
                [("x86_64-linux", 1, Node.attrs [("unit", 2, Node.drv "unit.drv" [])])])]
            "x86_64-linux" true with
        | .error _ => []
        | .ok s => if true && !s.drvPaths.isEmpty then [s.drvPaths] else [] :=
  buildTrigger_single_batch
    [("checks", 0, Node.attrs
        [("x86_64-linux", 1, Node.attrs [("unit", 2, Node.drv "unit.drv" [])])])]
    "x86_64-linux" true

/-- Claim C4: the nested job-set validator fails immediately when the forced
top-level mapping is itself a derivation; otherwise it accepts derivation
entries as leaves and recurses into every other entry as a nested job set,
at unbounded depth. -/
theorem checkHydraJobs_spec (a : String) (v : Node) (p : Nat) :
    (checkHydraJobs a v p = Except.ok () ↔ goodJobs v = true)
    ∧ (isDerivation v = true →
        checkHydraJobs a v p
          = Except.error (pushFrame
              ("while checking the Hydra jobset " ++ a ++ " at " ++ toString p ++ ":")
              (mkErr "jobset should not be a derivation at top-level"))) := by
  constructor
  · exact checkHydraJobs_ok_iff a v p
  · intro hd
    cases v <;> simp [isDerivation] at hd
    case drv q es => simp [checkHydraJobs, withFrame]

/-- Witness for C4: a top-level derivation is rejected immediately. -/
theorem checkHydraJobs_spec_witness :
    isDerivation (Node.drv "a.drv" []) = true
    ∧ checkHydraJobs "hydraJobs" (Node.drv "a.drv" []) 0
        = Except.error (pushFrame
            ("while checking the Hydra jobset " ++ "hydraJobs" ++ " at "
              ++ toString (0 : Nat) ++ ":")
            (mkErr "jobset should not be a derivation at top-level")) :=
  ⟨rfl, (checkHydraJobs_spec "hydraJobs" (Node.drv "a.drv" []) 0).2 rfl⟩

/-- Claim C5: the overlay validator succeeds exactly on a non-pattern lambda
named `final` whose body is syntactically a non-pattern lambda named `prev`,
and its verdict never depends on the inner function body (the body is not
evaluated). -/
theorem checkOverlay_spec (a : String) (v : Node) (p : Nat) :
    (checkOverlay a v p = Except.ok () ↔ overlayShape v = true)
    ∧ (∀ (ma el : Bool) (arg : String) (ma2 el2 : Bool) (arg2 : String) (b1 b2 : Expr),
        checkOverlay a (Node.lam ma el arg (Expr.lam ma2 el2 arg2 b1)) p
          = checkOverlay a (Node.lam ma el arg (Expr.lam ma2 el2 arg2 b2)) p) := by
  refine ⟨checkOverlay_ok_iff a v p, ?_⟩
  intro ma el arg ma2 el2 arg2 b1 b2
  rfl

/-- Witness for C5: a correctly named overlay is accepted, and replacing the
inner body does not change the verdict. -/
theorem checkOverlay_spec_witness :
    (checkOverlay "overlay"
        (Node.lam false false "final" (Expr.lam false false "prev" (Expr.other 0))) 0
        = Except.ok ()
      ↔ overlayShape
          (Node.lam false false "final" (Expr.lam false false "prev" (Expr.other 0)))
          = true)
    ∧ checkOverlay "overlay"
        (Node.lam false false "final" (Expr.lam false false "prev" (Expr.other 1))) 0
      = checkOverlay "overlay"
          (Node.lam false false "final" (Expr.lam false false "prev" (Expr.other 2))) 0 :=
  ⟨(checkOverlay_spec "overlay"
      (Node.lam false false "final" (Expr.lam false false "prev" (Expr.other 0))) 0).1,
   (checkOverlay_spec "overlay"
      (Node.lam false false "final" (Expr.lam false false "prev" (Expr.other 0))) 0).2
      false false "final" false false "prev" (Expr.other 1) (Expr.other 2)⟩

/-- Claim C6: in every platform-keyed category, a per-platform name without
the separator raises the invalid-system error naming the string and its
position, and the outcome does not depend on the per-platform subtree value
at all — in particular the subtree (even one whose forcing would fail) is
never forced. -/
theorem platformGuard_rejects_before_forcing (t cat sysName : String) (p pos : Nat)
    (v : Node) (rest : List (String × Nat × Node)) (s : St)
    (hcat : cat ∈ platformOutputs) (hsys : validSystem sysName = false) :
    checkOneOutput t cat (Node.attrs ((sysName, p, v) :: rest)) pos s
      = Except.error
          { frames := ["while checking flake output " ++ cat ++ ":"],
            msg := sysName ++ " is not a valid system type, at " ++ toString p } := by
  have hs := checkSystemName_invalid p hsys
  fin_cases hcat <;>
    (simp only [checkOneOutput]
     rw [show forceValue (Node.attrs ((sysName, p, v) :: rest)) pos
           = Except.ok (Node.attrs ((sysName, p, v) :: rest)) from rfl]
     simp only [ok_bind, String.reduceEq, decide_False, decide_True, Bool.or_self,
       Bool.or_true, Bool.false_or, Bool.true_or, Bool.false_eq_true, reduceIte]
     rw [forceAttrs_attrs]
     simp only [ok_bind]
     simp [checksOuter, packagesOuter, appsOuter, perSystemDrv, perSystemApp,
       legacyOuter, hs, withFrame, pushFrame, mkErr])

/-- Witness for C6: an invalid platform name under `legacyPackages` whose
subtree is a failing thunk; the guard error fires and the thunk is never
forced. -/
theorem platformGuard_rejects_before_forcing_witness :
    "legacyPackages" ∈ platformOutputs
    ∧ validSystem "foo" = false
    ∧ checkOneOutput "x86_64-linux" "legacyPackages"
        (Node.attrs [("foo", 7, Node.fail "boom")]) 0
        { drvPaths := [], warnings := [], submissions := [] }
      = Except.error
          { frames := ["while checking flake output " ++ "legacyPackages" ++ ":"],
            msg := "foo" ++ " is not a valid system type, at " ++ toString (7 : Nat) } :=
  ⟨by decide, rfl,
    platformGuard_rejects_before_forcing "x86_64-linux" "legacyPackages" "foo" 7 0
      (Node.fail "boom") [] { drvPaths := [], warnings := [], submissions := [] }
      (by decide) rfl⟩

/-- Claim C7: the system-configuration validator succeeds exactly when the
fixed path `config.system.build.toplevel` exists and ends at a derivation,
and every failure carries the context frame naming the configuration. -/
theorem checkNixOSConfiguration_spec (a : String) (v : Node) (p : Nat) :
    (checkNixOSConfiguration a v p = Except.ok () ↔ configShape v = true)
    ∧ (∀ e, checkNixOSConfiguration a v p = Except.error e →
        e.frames
          = ["while checking the NixOS configuration " ++ a ++ " at "
              ++ toString p ++ ":"]) :=
  ⟨checkNixOSConfiguration_ok_iff a v p,
   fun _ he => checkNixOSConfiguration_error_frames he⟩

/-- Witness for C7: a configuration with no `config` attribute fails with the
configuration context frame. -/
theorem checkNixOSConfiguration_spec_witness :
    checkNixOSConfiguration "nixosConfigurations.foo" (Node.attrs []) 0
      = Except.error
          { frames := ["while checking the NixOS configuration "
              ++ "nixosConfigurations.foo" ++ " at " ++ toString (0 : Nat) ++ ":"],
            msg := "attribute " ++ "config" ++ " not found" }
    ∧ Err.frames
        { frames := ["while checking the NixOS configuration "
            ++ "nixosConfigurations.foo" ++ " at " ++ toString (0 : Nat) ++ ":"],
          msg := "attribute " ++ "config" ++ " not found" }
      = ["while checking the NixOS configuration " ++ "nixosConfigurations.foo"
          ++ " at " ++ toString (0 : Nat) ++ ":"] :=
  ⟨by rfl,
   (checkNixOSConfiguration_spec "nixosConfigurations.foo" (Node.attrs []) 0).2 _ (by rfl)⟩

/-- Claim C8: an output whose name is outside the recognized category set
only produces the warning naming it and the pass continues with the
remaining outputs; the name alone never fails the check. -/
theorem unknown_output_warns_and_continues (t name : String) (pos : Nat) (v : Node)
    (rest : List (String × Nat × Node)) (s : St)
    (hname : name ∉ knownOutputs) (hv : notFail v = true) :
    forEachOutput t ((name, pos, v) :: rest) s
      = forEachOutput t rest
          { s with warnings := s.warnings ++ ["unknown flake output " ++ name] } := by
  simp only [knownOutputs, List.mem_cons, List.not_mem_nil, or_false, not_or] at hname
  obtain ⟨q1, q2, q3, q4, q5, q6, q7, q8, q9, q10, q11, q12, q13⟩ := hname
  simp only [forEachOutput, checkOneOutput]
  rw [forceValue_notFail pos hv]
  simp only [ok_bind]
  rw [if_neg q1, if_neg q2, if_neg q3,
    if_neg (by simp [q4, q5]), if_neg q6, if_neg q7, if_neg q8, if_neg q9,
    if_neg q10, if_neg q11, if_neg q12, if_neg q13]
  rfl

/-- Witness for C8: an unknown output name with an evaluable value warns and
passes control to the rest of the manifest. -/
theorem unknown_output_warns_and_continues_witness :
    "fancyOutput" ∉ knownOutputs
    ∧ notFail (Node.prim 3) = true
    ∧ forEachOutput "s-s" [("fancyOutput", 0, Node.prim 3)]
        { drvPaths := [], warnings := [], submissions := [] }
      = forEachOutput "s-s" []
          { drvPaths := [],
            warnings := [] ++ ["unknown flake output " ++ "fancyOutput"],
            submissions := [] } :=
  ⟨by decide, rfl,
    unknown_output_warns_and_continues "s-s" "fancyOutput" 0 (Node.prim 3) []
      { drvPaths := [], warnings := [], submissions := [] } (by decide) rfl⟩

/-- Claim C9: every output value is forced before category dispatch, so any
output (in particular one with an unrecognized name) whose value fails to
evaluate aborts the whole check with the evaluation error wrapped in the
frame naming that flake output. -/
theorem output_forced_before_dispatch (t name : String) (pos : Nat) (m : String)
    (rest : List (String × Nat × Node)) (s : St) :
    forEachOutput t ((name, pos, Node.fail m) :: rest) s
      = Except.error
          { frames := ["while checking flake output " ++ name ++ ":"],
            msg := m } := by
  simp only [forEachOutput, checkOneOutput]
  rw [show forceValue (Node.fail m) pos = Except.error (mkErr m) from rfl]
  simp [withFrame, pushFrame, mkErr]

/-- Claim C10: the `legacyPackages` branch only forces the outer per-platform
mapping and validates the platform names; the per-platform values are never
forced, so even values whose forcing would fail do not fail the check. -/
theorem legacyPackages_values_not_forced (t : String) (pos : Nat) (s : St)
    (es : List (String × Nat × Node))
    (h : es.all (fun e => validSystem e.1) = true) :
    checkOneOutput t "legacyPackages" (Node.attrs es) pos s = Except.ok s := by
  simp only [checkOneOutput]
  rw [show forceValue (Node.attrs es) pos = Except.ok (Node.attrs es) from rfl]
  simp only [ok_bind, String.reduceEq, decide_False, decide_True, Bool.or_self,
    Bool.or_true, Bool.false_or, Bool.true_or, Bool.false_eq_true, reduceIte]
  rw [forceAttrs_attrs]
  simp only [ok_bind]
  rw [legacyOuter_wf h]
  rfl

/-- Witness for C10: a `legacyPackages` platform entry whose value is a
failing thunk still passes. -/
theorem legacyPackages_values_not_forced_witness :
    ([("x86_64-linux", 1, Node.fail "boom")] : List (String × Nat × Node)).all
        (fun e => validSystem e.1) = true
    ∧ checkOneOutput "s-s" "legacyPackages"
        (Node.attrs [("x86_64-linux", 1, Node.fail "boom")]) 0
        { drvPaths := [], warnings := [], submissions := [] }
      = Except.ok { drvPaths := [], warnings := [], submissions := [] } :=
  ⟨rfl,
    legacyPackages_values_not_forced "s-s" 0
      { drvPaths := [], warnings := [], submissions := [] }
      [("x86_64-linux", 1, Node.fail "boom")] rfl⟩

end FlakeCheck
